import Mathlib

/-!
# Verification of the PNGReader PNG decoder

Shallow embedding of `PNGReader.ts` (class `PNGReader`) and of the `PNG`
data class it populates.  Byte buffers are `List ℕ` (or `ℕ → ℕ` stores for
the in-place pixel buffer), machine arithmetic is `ℕ`/`ℤ` with explicit
wrap-around (`% 256`, signed 32-bit wrapping for JavaScript's `<<`), and
every throwing operation returns `Except Err _`.
-/

namespace PNGReader

/-- The errors thrown by the decoder (each constructor stands for one
`throw new Error(...)` site of the source; messages are elided). -/
inductive Err where
  | eof                              -- 'Unexpectedly reached end of file'
  | pointerNotZero                   -- 'file pointer should be at 0 to read the header'
  | badSignature                     -- 'invalid PNGReader file (bad signature)'
  | badChunkLength (len : ℤ)         -- 'Bad chunk length ' + (0xFFFFFFFF & length);
                                     -- for an int32 `length`, -1 & length = length
  | invalidBitDepth (d : ℕ)          -- "invalid bith depth " + bitDepth
  | invalidColorType (t : ℕ)         -- "invalid color type"
  | invalidCompressionMethod (m : ℕ) -- "invalid compression method "
  | invalidFilterMethod (m : ℕ)      -- "invalid filter method "
  | invalidInterlaceMethod (m : ℕ)   -- "invalid interlace method "
  | plteLengthErr                    -- "incorrect PLTE chunk length"
  | paletteTooLarge                  -- "palette has more colors than 2^bitdepth"
  | unknownFilter                    -- "unkown filtered scanline"
  | adam7NotImplemented              -- "Adam7 interlacing is not implemented yet"
  | rangeErr                         -- RangeError from `new ArrayBuffer(negative)`
  | pixelsEmpty                      -- "pixel data is empty"
  | outOfBound                       -- "x,y position out of bound"
  | nullAccess                       -- TypeError: property access on null palette
  | inflateErr                       -- an error produced by the inflate collaborator
  deriving DecidableEq

/-- JavaScript `ToInt32`: wrap an integer into the signed 32-bit range. -/
def toInt32 (n : ℤ) : ℤ :=
  if n % 4294967296 < 2147483648 then n % 4294967296 else n % 4294967296 - 4294967296

/-- JavaScript left shift `x << s`: both the operand and the result live in
signed 32-bit range, the shift count is taken mod 32. -/
def jsShl (x : ℤ) (s : ℕ) : ℤ := toInt32 (toInt32 x * 2 ^ (s % 32))

/-- `readUInt32(buffer, offset)` (PNGReader.ts lines 24-29): big-endian read
of four bytes.  The `<< 24` shift is a *signed* 32-bit shift, so a byte
`>= 0x80` in the top position makes the result negative.  An out-of-range
read yields `undefined`, and `undefined << k` is `0`, hence the `getD _ 0`. -/
def readUInt32 (buffer : List ℕ) (offset : ℕ) : ℤ :=
  jsShl (buffer.getD offset 0) 24 +
    jsShl (buffer.getD (offset + 1) 0) 16 +
    jsShl (buffer.getD (offset + 2) 0) 8 +
    jsShl (buffer.getD (offset + 3) 0) 0

/-- `readUInt8(buffer, offset)` (lines 35-37): `buffer[offset] << 0`, which
is the identity on byte values and `0` on an out-of-range (`undefined`) read. -/
def readUInt8 (buffer : List ℕ) (offset : ℕ) : ℕ := buffer.getD offset 0

/-- `equalBytes(a, b)` (lines 18-22): length check plus element-wise compare. -/
def equalBytes (a b : List ℕ) : Bool :=
  a.length == b.length && (List.zip a b).all fun p => p.1 == p.2

/-! ## The in-place pixel store and the unfiltering loops

The source unfilters each scanline by mutating a shared `pixels` array in
place.  We model the array as a total store `ℕ → ℕ` and a loop
`for (i = s; i < s + k; i++) pixels[of + i] = body(pixels, i)` as the
recursion `loopFrom body of s px k`, where `body` receives the store as
already updated by the earlier iterations of the same loop. -/

/-- Array write `pixels[j] = v`. -/
def upd (px : ℕ → ℕ) (j v : ℕ) : ℕ → ℕ := fun k => if k = j then v else px k

/-- `k` iterations of `pixels[of + i] = body(pixels, i)` for `i = s, s+1, ...`. -/
def loopFrom (body : (ℕ → ℕ) → ℕ → ℕ) (of s : ℕ) (px : ℕ → ℕ) : ℕ → ℕ → ℕ
  | 0 => px
  | k + 1 =>
    upd (loopFrom body of s px k) (of + (s + k)) (body (loopFrom body of s px k) (s + k))

theorem upd_same (px : ℕ → ℕ) (j v : ℕ) : upd px j v j = v := by
  simp [upd]

theorem upd_other (px : ℕ → ℕ) (j v k : ℕ) (h : k ≠ j) : upd px j v k = px k := by
  simp [upd, h]

/-- Positions below the loop's write window are untouched. -/
theorem loopFrom_low {body : (ℕ → ℕ) → ℕ → ℕ} {of s : ℕ} {px : ℕ → ℕ} {k j : ℕ}
    (h : j < of + s) : loopFrom body of s px k j = px j := by
  induction k with
  | zero => rfl
  | succ k ih =>
    show upd (loopFrom body of s px k) (of + (s + k)) _ j = px j
    rw [upd_other _ _ _ _ (by omega)]
    exact ih

/-- Positions at or beyond the loop's write window are untouched. -/
theorem loopFrom_high {body : (ℕ → ℕ) → ℕ → ℕ} {of s : ℕ} {px : ℕ → ℕ} {k j : ℕ}
    (h : of + s + k ≤ j) : loopFrom body of s px k j = px j := by
  induction k with
  | zero => rfl
  | succ k ih =>
    show upd (loopFrom body of s px k) (of + (s + k)) _ j = px j
    rw [upd_other _ _ _ _ (by omega)]
    exact ih (by omega)

/-- The value the loop leaves at position `of + (s + m)`: the write of
iteration `m`, computed from the store after the first `m` iterations. -/
theorem loopFrom_at {body : (ℕ → ℕ) → ℕ → ℕ} {of s : ℕ} {px : ℕ → ℕ} {m k : ℕ}
    (h : m < k) :
    loopFrom body of s px k (of + (s + m)) = body (loopFrom body of s px m) (s + m) := by
  induction k with
  | zero => omega
  | succ k ih =>
    rcases Nat.lt_succ_iff_lt_or_eq.mp h with h' | h'
    · show upd (loopFrom body of s px k) (of + (s + k)) _ (of + (s + m)) = _
      rw [upd_other _ _ _ _ (by omega)]
      exact ih h'
    · subst h'
      show upd (loopFrom body of s px m) (of + (s + m)) _ (of + (s + m)) = _
      rw [upd_same]

/-- A position already written does not change as the loop runs further. -/
theorem loopFrom_at_eq {body : (ℕ → ℕ) → ℕ → ℕ} {of s : ℕ} {px : ℕ → ℕ}
    {m k1 k2 : ℕ} (h1 : m < k1) (h2 : m < k2) :
    loopFrom body of s px k1 (of + (s + m)) = loopFrom body of s px k2 (of + (s + m)) := by
  rw [loopFrom_at h1, loopFrom_at h2]

/-- `loopFrom_at` with the position written as `of + m` for `s ≤ m`. -/
theorem loopFrom_at' {body : (ℕ → ℕ) → ℕ → ℕ} {of s : ℕ} {px : ℕ → ℕ} {m k : ℕ}
    (hs : s ≤ m) (h : m - s < k) :
    loopFrom body of s px k (of + m) = body (loopFrom body of s px (m - s)) m := by
  have h2 := @loopFrom_at body of s px (m - s) k h
  have e1 : of + (s + (m - s)) = of + m := by omega
  have e2 : s + (m - s) = m := by omega
  rw [e1, e2] at h2
  exact h2

/-- `loopFrom_at_eq` with the position written as `of + m` for `s ≤ m`. -/
theorem loopFrom_at_eq' {body : (ℕ → ℕ) → ℕ → ℕ} {of s : ℕ} {px : ℕ → ℕ}
    {m k1 k2 : ℕ} (hs : s ≤ m) (h1 : m - s < k1) (h2 : m - s < k2) :
    loopFrom body of s px k1 (of + m) = loopFrom body of s px k2 (of + m) := by
  rw [loopFrom_at' hs h1, loopFrom_at' hs h2]

/-! ## The five unfiltering functions (PNGReader.ts lines 258-384)

Each takes the scanline, the pixel store, `bpp`, the row offset `of` and the
row byte length `length`, and returns the updated store.  The source tests
`(of - length) < 0` to recognise the first scanline; with `of, length : ℕ`
that condition is `of < length`.  JavaScript's `x >> 1` is `x / 2` and
`x & 0xFF` is `x % 256` on the non-negative values that arise here. -/

/-- `unFilterNone` (lines 258-262): direct copy. -/
def unFilterNone (scanline px : ℕ → ℕ) (bpp of length : ℕ) : ℕ → ℕ :=
  loopFrom (fun _ i => scanline i) of 0 px length

/-- `unFilterSub` (lines 269-276): copy the first `bpp` bytes, then
`pixels[of + i] = (scanline[i] + pixels[of + i - bpp]) & 0xFF`. -/
def unFilterSub (scanline px : ℕ → ℕ) (bpp of length : ℕ) : ℕ → ℕ :=
  loopFrom (fun p i => (scanline i + p (of + i - bpp)) % 256) of bpp
    (loopFrom (fun _ i => scanline i) of 0 px bpp) (length - bpp)

/-- `unFilterUp` (lines 284-296). -/
def unFilterUp (scanline px : ℕ → ℕ) (bpp of length : ℕ) : ℕ → ℕ :=
  if of < length then
    loopFrom (fun _ i => scanline i) of 0 px length
  else
    loopFrom (fun p i => (scanline i + p (of + i - length)) % 256) of 0 px length

/-- `unFilterAverage` (lines 303-327).  In the last loop the source computes
`byte + (prev + prior >> 1)`: `+` binds tighter than `>>`, so the shift
halves the sum. -/
def unFilterAverage (scanline px : ℕ → ℕ) (bpp of length : ℕ) : ℕ → ℕ :=
  if of < length then
    loopFrom (fun p i => (scanline i + p (of + i - bpp) / 2) % 256) of bpp
      (loopFrom (fun _ i => scanline i) of 0 px bpp) (length - bpp)
  else
    loopFrom (fun p i => (scanline i + (p (of + i - bpp) + p (of + i - length)) / 2) % 256)
      of bpp
      (loopFrom (fun p i => (scanline i + p (of - length + i) / 2) % 256) of 0 px bpp)
      (length - bpp)

/-- The Paeth predictor as computed inline in `unFilterPaeth` (lines 370-380):
`p = a + b - c` in exact (signed) arithmetic, absolute distances, nearest of
`a`, `b`, `c` with ties broken in that order. -/
def paethPredictor (a b c : ℕ) : ℕ :=
  let p : ℤ := (a : ℤ) + b - c
  let pa := (p - a).natAbs
  let pb := (p - b).natAbs
  let pc := (p - c).natAbs
  if pa ≤ pb ∧ pa ≤ pc then a else if pb ≤ pc then b else c

/-- `unFilterPaeth` (lines 350-384).  The first-row / first-`bpp` branches
inline `paethPredictor(x, 0, 0) = x` as the source comments note. -/
def unFilterPaeth (scanline px : ℕ → ℕ) (bpp of length : ℕ) : ℕ → ℕ :=
  if of < length then
    loopFrom (fun p i => (scanline i + p (of + i - bpp)) % 256) of bpp
      (loopFrom (fun _ i => scanline i) of 0 px bpp) (length - bpp)
  else
    loopFrom (fun p i =>
        (scanline i +
          paethPredictor (p (of + i - bpp)) (p (of + i - length)) (p (of + i - length - bpp))) % 256)
      of bpp
      (loopFrom (fun p i => (scanline i + p (of + i - length)) % 256) of 0 px bpp)
      (length - bpp)

/-- The filter-type dispatch of `interlaceNone` (lines 232-239). -/
def unFilterScanline (ftype : ℕ) (scanline px : ℕ → ℕ) (bpp of length : ℕ) :
    Except Err (ℕ → ℕ) :=
  match ftype with
  | 0 => .ok (unFilterNone scanline px bpp of length)
  | 1 => .ok (unFilterSub scanline px bpp of length)
  | 2 => .ok (unFilterUp scanline px bpp of length)
  | 3 => .ok (unFilterAverage scanline px bpp of length)
  | 4 => .ok (unFilterPaeth scanline px bpp of length)
  | _ => .error .unknownFilter

/-! ### Pointwise characterisation of the unfiltering functions

Positions below the row offset are untouched, and the value left at
`of + i` is the one the source's loops compute from the neighbours. -/

/-- A written position's value does not depend on how far the loop has run,
as long as it has run past it (reads below `of + s` fall back to the base
store either way). -/
theorem loopFrom_agree {body : (ℕ → ℕ) → ℕ → ℕ} {of s : ℕ} {base : ℕ → ℕ}
    {m k1 k2 : ℕ} (h : m < s ∨ (s ≤ m ∧ m - s < k1 ∧ m - s < k2)) :
    loopFrom body of s base k1 (of + m) = loopFrom body of s base k2 (of + m) := by
  rcases h with h | ⟨hs, hk1, hk2⟩
  · rw [loopFrom_low (by omega), loopFrom_low (by omega)]
  · exact loopFrom_at_eq' hs hk1 hk2

theorem unFilterNone_at {scanline px : ℕ → ℕ} {bpp of length i : ℕ} (h : i < length) :
    unFilterNone scanline px bpp of length (of + i) = scanline i := by
  unfold unFilterNone
  rw [loopFrom_at' (Nat.zero_le i) (by omega)]

theorem unFilterSub_untouched {scanline px : ℕ → ℕ} {bpp of length j : ℕ} (h : j < of) :
    unFilterSub scanline px bpp of length j = px j := by
  unfold unFilterSub
  rw [loopFrom_low (by omega), loopFrom_low (by omega)]

theorem unFilterSub_low {scanline px : ℕ → ℕ} {bpp of length i : ℕ} (h : i < bpp) :
    unFilterSub scanline px bpp of length (of + i) = scanline i := by
  unfold unFilterSub
  rw [loopFrom_low (by omega), loopFrom_at' (Nat.zero_le i) (by omega)]

theorem unFilterSub_at {scanline px : ℕ → ℕ} {bpp of length i : ℕ}
    (hbpp : 0 < bpp) (h1 : bpp ≤ i) (h2 : i < length) :
    unFilterSub scanline px bpp of length (of + i) =
      (scanline i + unFilterSub scanline px bpp of length (of + i - bpp)) % 256 := by
  unfold unFilterSub
  simp only [loopFrom_at' h1 (show i - bpp < length - bpp by omega)]
  rw [show of + i - bpp = of + (i - bpp) from by omega]
  refine congrArg (fun z => (scanline i + z) % 256) (loopFrom_agree ?_)
  rcases Nat.lt_or_ge (i - bpp) bpp with hlt | hge
  · exact Or.inl hlt
  · exact Or.inr ⟨hge, by omega, by omega⟩

theorem unFilterUp_untouched {scanline px : ℕ → ℕ} {bpp of length j : ℕ} (h : j < of) :
    unFilterUp scanline px bpp of length j = px j := by
  unfold unFilterUp
  split_ifs <;> rw [loopFrom_low (by omega)]

theorem unFilterUp_first {scanline px : ℕ → ℕ} {bpp of length i : ℕ}
    (hof : of < length) (h : i < length) :
    unFilterUp scanline px bpp of length (of + i) = scanline i := by
  unfold unFilterUp
  rw [if_pos hof, loopFrom_at' (Nat.zero_le i) (by omega)]

theorem unFilterUp_else {scanline px : ℕ → ℕ} {bpp of length i : ℕ}
    (hof : length ≤ of) (h : i < length) :
    unFilterUp scanline px bpp of length (of + i) =
      (scanline i + px (of + i - length)) % 256 := by
  unfold unFilterUp
  rw [if_neg (by omega)]
  simp only [loopFrom_at' (Nat.zero_le i) (show i - 0 < length by omega)]
  rw [loopFrom_low (show of + i - length < of + 0 from by omega)]

theorem unFilterAverage_untouched {scanline px : ℕ → ℕ} {bpp of length j : ℕ} (h : j < of) :
    unFilterAverage scanline px bpp of length j = px j := by
  unfold unFilterAverage
  split_ifs <;> rw [loopFrom_low (by omega), loopFrom_low (by omega)]

theorem unFilterAverage_first_low {scanline px : ℕ → ℕ} {bpp of length i : ℕ}
    (hof : of < length) (h : i < bpp) :
    unFilterAverage scanline px bpp of length (of + i) = scanline i := by
  unfold unFilterAverage
  rw [if_pos hof, loopFrom_low (by omega), loopFrom_at' (Nat.zero_le i) (by omega)]

theorem unFilterAverage_first_at {scanline px : ℕ → ℕ} {bpp of length i : ℕ}
    (hbpp : 0 < bpp) (hof : of < length) (h1 : bpp ≤ i) (h2 : i < length) :
    unFilterAverage scanline px bpp of length (of + i) =
      (scanline i + unFilterAverage scanline px bpp of length (of + i - bpp) / 2) % 256 := by
  unfold unFilterAverage
  rw [if_pos hof]
  simp only [loopFrom_at' h1 (show i - bpp < length - bpp by omega)]
  rw [show of + i - bpp = of + (i - bpp) from by omega]
  refine congrArg (fun z => (scanline i + z / 2) % 256) (loopFrom_agree ?_)
  rcases Nat.lt_or_ge (i - bpp) bpp with hlt | hge
  · exact Or.inl hlt
  · exact Or.inr ⟨hge, by omega, by omega⟩

theorem unFilterAverage_else_low {scanline px : ℕ → ℕ} {bpp of length i : ℕ}
    (hof : length ≤ of) (h1 : i < bpp) (h2 : i < length) :
    unFilterAverage scanline px bpp of length (of + i) =
      (scanline i + px (of + i - length) / 2) % 256 := by
  unfold unFilterAverage
  rw [if_neg (by omega), loopFrom_low (by omega)]
  simp only [loopFrom_at' (Nat.zero_le i) (show i - 0 < bpp by omega)]
  rw [loopFrom_low (show of - length + i < of + 0 from by omega),
    show of - length + i = of + i - length from by omega]

theorem unFilterAverage_else_at {scanline px : ℕ → ℕ} {bpp of length i : ℕ}
    (hbpp : 0 < bpp) (hof : length ≤ of) (h1 : bpp ≤ i) (h2 : i < length) :
    unFilterAverage scanline px bpp of length (of + i) =
      (scanline i +
        (unFilterAverage scanline px bpp of length (of + i - bpp) + px (of + i - length)) / 2) % 256 := by
  unfold unFilterAverage
  rw [if_neg (by omega)]
  simp only [loopFrom_at' h1 (show i - bpp < length - bpp by omega)]
  rw [loopFrom_low (show of + i - length < of + bpp from by omega),
    loopFrom_low (show of + i - length < of + 0 from by omega),
    show of + i - bpp = of + (i - bpp) from by omega]
  refine congrArg (fun z => (scanline i + (z + px (of + i - length)) / 2) % 256) (loopFrom_agree ?_)
  rcases Nat.lt_or_ge (i - bpp) bpp with hlt | hge
  · exact Or.inl hlt
  · exact Or.inr ⟨hge, by omega, by omega⟩

theorem unFilterPaeth_untouched {scanline px : ℕ → ℕ} {bpp of length j : ℕ} (h : j < of) :
    unFilterPaeth scanline px bpp of length j = px j := by
  unfold unFilterPaeth
  split_ifs <;> rw [loopFrom_low (by omega), loopFrom_low (by omega)]

theorem unFilterPaeth_first_low {scanline px : ℕ → ℕ} {bpp of length i : ℕ}
    (hof : of < length) (h : i < bpp) :
    unFilterPaeth scanline px bpp of length (of + i) = scanline i := by
  unfold unFilterPaeth
  rw [if_pos hof, loopFrom_low (by omega), loopFrom_at' (Nat.zero_le i) (by omega)]

theorem unFilterPaeth_first_at {scanline px : ℕ → ℕ} {bpp of length i : ℕ}
    (hbpp : 0 < bpp) (hof : of < length) (h1 : bpp ≤ i) (h2 : i < length) :
    unFilterPaeth scanline px bpp of length (of + i) =
      (scanline i + unFilterPaeth scanline px bpp of length (of + i - bpp)) % 256 := by
  unfold unFilterPaeth
  rw [if_pos hof]
  simp only [loopFrom_at' h1 (show i - bpp < length - bpp by omega)]
  rw [show of + i - bpp = of + (i - bpp) from by omega]
  refine congrArg (fun z => (scanline i + z) % 256) (loopFrom_agree ?_)
  rcases Nat.lt_or_ge (i - bpp) bpp with hlt | hge
  · exact Or.inl hlt
  · exact Or.inr ⟨hge, by omega, by omega⟩

theorem unFilterPaeth_else_low {scanline px : ℕ → ℕ} {bpp of length i : ℕ}
    (hof : length ≤ of) (h1 : i < bpp) (h2 : i < length) :
    unFilterPaeth scanline px bpp of length (of + i) =
      (scanline i + px (of + i - length)) % 256 := by
  unfold unFilterPaeth
  rw [if_neg (by omega), loopFrom_low (by omega)]
  simp only [loopFrom_at' (Nat.zero_le i) (show i - 0 < bpp by omega)]
  rw [loopFrom_low (show of + i - length < of + 0 from by omega)]

theorem unFilterPaeth_else_at {scanline px : ℕ → ℕ} {bpp of length i : ℕ}
    (hbpp : 0 < bpp) (hof : length ≤ of) (h1 : bpp ≤ i) (h2 : i < length) :
    unFilterPaeth scanline px bpp of length (of + i) =
      (scanline i +
        paethPredictor (unFilterPaeth scanline px bpp of length (of + i - bpp))
          (px (of + i - length)) (px (of + i - length - bpp))) % 256 := by
  unfold unFilterPaeth
  rw [if_neg (by omega)]
  simp only [loopFrom_at' h1 (show i - bpp < length - bpp by omega)]
  rw [loopFrom_low (show of + i - length < of + bpp from by omega),
    loopFrom_low (show of + i - length < of + 0 from by omega),
    loopFrom_low (show of + i - length - bpp < of + bpp from by omega),
    loopFrom_low (show of + i - length - bpp < of + 0 from by omega),
    show of + i - bpp = of + (i - bpp) from by omega]
  refine congrArg
    (fun z => (scanline i + paethPredictor z (px (of + i - length)) (px (of + i - length - bpp))) % 256)
    (loopFrom_agree ?_)
  rcases Nat.lt_or_ge (i - bpp) bpp with hlt | hge
  · exact Or.inl hlt
  · exact Or.inr ⟨hge, by omega, by omega⟩

/-! ## The PNG data class (PNG.ts part of the source)

Every field is initialised as in the constructor (lines 429-442), and each
validating setter becomes a function returning `Except Err PNGState`.
`width`/`height` are `ℤ` because `readUInt32` can hand the setters a
negative number and they store it unchecked. -/

structure PNGState where
  width : ℤ
  height : ℤ
  bitDepth : ℕ
  colorType : ℕ
  compressionMethod : ℕ
  filterMethod : ℕ
  interlaceMethod : ℕ
  colors : ℕ
  alpha : Bool
  pixelBits : ℕ
  palette : Option (List ℕ)
  pixels : Option (ℕ → ℕ)

/-- The freshly constructed `PNG` object. -/
def initPNG : PNGState := ⟨0, 0, 0, 0, 0, 0, 0, 0, false, 0, none, none⟩

/-- `set width` (lines 452-454): no validation. -/
def setWidth (png : PNGState) (w : ℤ) : PNGState := { png with width := w }

/-- `set height` (lines 460-462): no validation. -/
def setHeight (png : PNGState) (h : ℤ) : PNGState := { png with height := h }

/-- `set bitDepth` (lines 468-473): rejects values outside `[2, 4, 8, 16]`. -/
def setBitDepth (png : PNGState) (d : ℕ) : Except Err PNGState :=
  if ([2, 4, 8, 16] : List ℕ).contains d then .ok { png with bitDepth := d }
  else .error (.invalidBitDepth d)

/-- `set colorType` (lines 479-511): derives `colors`/`alpha`. -/
def setColorType (png : PNGState) (t : ℕ) : Except Err PNGState :=
  match t with
  | 0 => .ok { png with colors := 1, alpha := false, colorType := 0 }
  | 2 => .ok { png with colors := 3, alpha := false, colorType := 2 }
  | 3 => .ok { png with colors := 1, alpha := false, colorType := 3 }
  | 4 => .ok { png with colors := 2, alpha := true, colorType := 4 }
  | 6 => .ok { png with colors := 4, alpha := true, colorType := 6 }
  | _ => .error (.invalidColorType t)

/-- `set compressionMethod` (lines 521-526): must be 0. -/
def setCompressionMethod (png : PNGState) (m : ℕ) : Except Err PNGState :=
  if m ≠ 0 then .error (.invalidCompressionMethod m)
  else .ok { png with compressionMethod := m }

/-- `set filterMethod` (lines 532-537): must be 0. -/
def setFilterMethod (png : PNGState) (m : ℕ) : Except Err PNGState :=
  if m ≠ 0 then .error (.invalidFilterMethod m)
  else .ok { png with filterMethod := m }

/-- `set interlaceMethod` (lines 543-548): 0 or 1. -/
def setInterlaceMethod (png : PNGState) (m : ℕ) : Except Err PNGState :=
  if m ≠ 0 ∧ m ≠ 1 then .error (.invalidInterlaceMethod m)
  else .ok { png with interlaceMethod := m }

/-- `set palette` (lines 550-558): length a multiple of 3 and at most
`2^bitDepth` triples. -/
def setPalette (png : PNGState) (p : List ℕ) : Except Err PNGState :=
  if p.length % 3 ≠ 0 then .error .plteLengthErr
  else if 2 ^ png.bitDepth * 3 < p.length then .error .paletteTooLarge
  else .ok { png with palette := some p }

/-- A read `pixels[q]` of the pixel buffer at a JavaScript-number index `q`:
only a non-negative integral index hits a written slot (fractional or
negative keys read an absent property, i.e. `undefined` = `none`).
Unwritten in-range slots are modelled as 0. -/
def readPx (f : ℕ → ℕ) (q : ℚ) : Option ℕ :=
  if q.den = 1 ∧ 0 ≤ q then some (f q.num.toNat) else none

/-- `getPixel(x, y)` (lines 576-595).  The result is `none` when the
`switch` falls through (no `case` for the stored color type, so the method
returns `undefined`); list entries are `none` where JavaScript would read
`undefined`.  The index `colors * bitDepth / 8 * (y * width + x)` is
computed as an exact rational, as JavaScript number division is. -/
def getPixel (png : PNGState) (x y : ℤ) : Except Err (Option (List (Option ℕ))) :=
  match png.pixels with
  | none => .error .pixelsEmpty
  | some f =>
    if png.width ≤ x ∨ png.height ≤ y then .error .outOfBound
    else
      let i : ℚ := (png.colors : ℚ) * (png.bitDepth : ℚ) / 8 * ((y : ℚ) * (png.width : ℚ) + (x : ℚ))
      match png.colorType with
      | 0 => .ok (some [readPx f i, readPx f i, readPx f i, some 255])
      | 2 => .ok (some [readPx f i, readPx f (i + 1), readPx f (i + 2), some 255])
      | 3 =>
        match png.palette with
        | none => .error .nullAccess
        | some pal =>
          match readPx f i with
          | none => .ok (some [none, none, none, some 255])
          | some v => .ok (some [pal.get? (v * 3), pal.get? (v * 3 + 1), pal.get? (v * 3 + 2), some 255])
      | 4 => .ok (some [readPx f i, readPx f i, readPx f i, readPx f (i + 1)])
      | 6 => .ok (some [readPx f i, readPx f (i + 1), readPx f (i + 2), readPx f (i + 3)])
      | _ => .ok none

/-! ## The reader (class `PNGReader`) -/

/-- The reader's mutable state: the input bytes, the cursor `i`, the `PNG`
object under construction, the accumulated IDAT chunks and the stored
signature. -/
structure ReaderState where
  bytes : List ℕ
  i : ℕ
  png : PNGState
  dataChunks : List (List ℕ)
  header : Option (List ℕ)

/-- The constructor (lines 64-75), with the input already a byte sequence. -/
def mkReader (bytes : List ℕ) : ReaderState := ⟨bytes, 0, initPNG, [], none⟩

/-- `readBytes(length)` (lines 77-85). -/
def readBytes (s : ReaderState) (length : ℕ) : Except Err (List ℕ × ReaderState) :=
  if s.bytes.length < s.i + length then .error .eof
  else .ok ((s.bytes.drop s.i).take length, { s with i := s.i + length })

/-- The PNG signature (line 98). -/
def pngSignature : List ℕ := [0x89, 0x50, 0x4E, 0x47, 0x0D, 0x0A, 0x1A, 0x0A]

/-- `decodeHeader()` (lines 90-103). -/
def decodeHeader (s : ReaderState) : Except Err ReaderState :=
  if s.i ≠ 0 then .error .pointerNotZero
  else
    match readBytes s 8 with
    | .error e => .error e
    | .ok (header, s1) =>
      if equalBytes header pngSignature then .ok { s1 with header := some header }
      else .error .badSignature

/-- `decodeIHDR(chunk)` (lines 147-157): the seven sequential field
assignments, each through its setter. -/
def decodeIHDR (chunk : List ℕ) (png : PNGState) : Except Err PNGState := do
  let png := setWidth png (readUInt32 chunk 0)
  let png := setHeight png (readUInt32 chunk 4)
  let png ← setBitDepth png (readUInt8 chunk 8)
  let png ← setColorType png (readUInt8 chunk 9)
  let png ← setCompressionMethod png (readUInt8 chunk 10)
  let png ← setFilterMethod png (readUInt8 chunk 11)
  let png ← setInterlaceMethod png (readUInt8 chunk 12)
  return png

/-- The four interpreted chunk type tags, as byte sequences
(`bufferToString` turns the bytes into the ASCII tag; we compare bytes). -/
def typeIHDR : List ℕ := [73, 72, 68, 82]

def typePLTE : List ℕ := [80, 76, 84, 69]

def typeIDAT : List ℕ := [73, 68, 65, 84]

def typeIEND : List ℕ := [73, 69, 78, 68]

/-- `decodeChunk()` (lines 113-133): length, negativity check, type tag,
data, CRC (read, not verified), then the dispatch.  `decodePLTE` is the
palette setter (lines 163-165), `decodeIDAT` appends the chunk
(lines 170-173), `decodeIEND` does nothing (lines 178-180), and any other
type is skipped.  There is no check that IHDR was seen first. -/
def decodeChunk (s : ReaderState) : Except Err (List ℕ × ReaderState) :=
  match readBytes s 4 with
  | .error e => .error e
  | .ok (lenBytes, s1) =>
    let length := readUInt32 lenBytes 0
    if length < 0 then .error (.badChunkLength length)
    else
      match readBytes s1 4 with
      | .error e => .error e
      | .ok (typeBytes, s2) =>
        match readBytes s2 length.toNat with
        | .error e => .error e
        | .ok (chunk, s3) =>
          match readBytes s3 4 with
          | .error e => .error e
          | .ok (_, s4) =>
            if typeBytes = typeIHDR then
              match decodeIHDR chunk s4.png with
              | .error e => .error e
              | .ok png' => .ok (typeBytes, { s4 with png := png' })
            else if typeBytes = typePLTE then
              match setPalette s4.png chunk with
              | .error e => .error e
              | .ok png' => .ok (typeBytes, { s4 with png := png' })
            else if typeBytes = typeIDAT then
              .ok (typeBytes, { s4 with dataChunks := s4.dataChunks ++ [chunk] })
            else
              .ok (typeBytes, s4)

/-- The scanline loop of `interlaceNone` (lines 228-243), fuel-indexed:
each iteration consumes `cpr + 1 ≥ 1` input bytes, so fuel
`data.length + 1` never runs out before `i` reaches `data.length`. -/
def interlaceLoop (data : List ℕ) (bpp cpr : ℕ) : ℕ → ℕ → ℕ → (ℕ → ℕ) → Except Err (ℕ → ℕ)
  | 0, _, _, pixels => .ok pixels
  | fuel + 1, i, offset, pixels =>
    if i < data.length then
      let scanline : ℕ → ℕ := fun j => ((data.drop (i + 1)).take cpr).getD j 0
      match unFilterScanline (readUInt8 data i) scanline pixels bpp offset cpr with
      | .error e => .error e
      | .ok pixels' => interlaceLoop data bpp cpr fuel (i + cpr + 1) (offset + cpr) pixels'
    else .ok pixels

/-- `interlaceNone(data)` (lines 214-247).  `bpp = Math.max(1, colors *
bitDepth / 8)` is integral for the byte-aligned depths 8 and 16 (for
sub-byte depths JavaScript computes a float; the natural division used here
agrees with the source whenever `colors * bitDepth / 8 ≤ 1` or is whole).
`new ArrayBuffer(bpp * width * height)` throws a RangeError on a negative
size, which is the only reachable behaviour for negative dimensions. -/
def interlaceNone (data : List ℕ) (png : PNGState) : Except Err PNGState :=
  let bpp := max 1 (png.colors * png.bitDepth / 8)
  if png.width < 0 ∨ png.height < 0 then .error .rangeErr
  else
    let cpr := bpp * png.width.toNat
    match interlaceLoop data bpp cpr (data.length + 1) 0 0 (fun _ => 0) with
    | .error e => .error e
    | .ok pixels => .ok { png with pixels := some pixels }

/-- The outcome of `parse`: the two arguments the callback receives, plus a
flag recording whether the inflate collaborator was invoked. -/
structure ParseResult where
  err : Option Err
  png : Option PNGState
  inflateCalled : Bool

/-- `decodePixels(callback)` (lines 185-211): concatenate the accumulated
IDAT chunks, hand them to the inflate collaborator (always — there is no
guard), then reconstruct.  `parse` wires the callback so that the `PNG`
object accompanies both the success and the error outcome. -/
def decodePixels (inflateFn : List ℕ → Except Err (List ℕ)) (s : ReaderState) : ParseResult :=
  let data := s.dataChunks.foldl (fun acc c => acc ++ c) []
  match inflateFn data with
  | .error e => ⟨some e, some s.png, true⟩
  | .ok inflated =>
    match
      (if s.png.interlaceMethod = 0 then interlaceNone inflated s.png
       else .error .adam7NotImplemented) with
    | .error e => ⟨some e, some s.png, true⟩
    | .ok png' => ⟨none, some png', true⟩

/-- The chunk loop of `parse` (lines 407-411), fuel-indexed: a successful
`decodeChunk` consumes at least 12 bytes, so fuel `bytes.length + 1` never
runs out before the cursor passes the end. -/
def parseLoop (dataOpt : Option Bool) : ℕ → ReaderState → Except Err ReaderState
  | 0, s => .ok s
  | fuel + 1, s =>
    if s.i < s.bytes.length then
      match decodeChunk s with
      | .error e => .error e
      | .ok (t, s') =>
        if (t = typeIHDR ∧ dataOpt = some false) ∨ t = typeIEND then .ok s'
        else parseLoop dataOpt fuel s'
    else .ok s

/-- `parse(options, callback)` (lines 398-423).  `dataOpt` is the `data`
option (`none` when absent); the early-stop condition is
`type == 'IHDR' && options.data === false || type == 'IEND'`.  After the
loop, `decodePixels` is invoked unconditionally. -/
def parse (inflateFn : List ℕ → Except Err (List ℕ)) (dataOpt : Option Bool)
    (bytes : List ℕ) : ParseResult :=
  match decodeHeader (mkReader bytes) with
  | .error e => ⟨some e, none, false⟩
  | .ok s =>
    match parseLoop dataOpt (s.bytes.length + 1) s with
    | .error e => ⟨some e, none, false⟩
    | .ok s' => decodePixels inflateFn s'

/-! ## Facts about the Paeth predictor -/

theorem paethPredictor_a00 (a : ℕ) : paethPredictor a 0 0 = a := by
  simp only [paethPredictor]
  rw [if_pos]
  constructor <;> simp

theorem paethPredictor_0b0 (b : ℕ) : paethPredictor 0 b 0 = b := by
  simp only [paethPredictor]
  split_ifs with h1 h2
  · simp only [Nat.cast_zero, zero_add, sub_zero, sub_self, Int.natAbs_zero,
      Int.natAbs_ofNat] at h1
    omega
  · rfl
  · exfalso
    apply h2
    simp only [Nat.cast_zero, zero_add, sub_zero, sub_self, Int.natAbs_zero,
      Int.natAbs_ofNat]
    omega

/-! ## The encoder-side filter (for the round-trip property)

Modelled from the spec: the filter of type `ft` applied by an encoder to a
single-row, single-channel image (`bpp = 1`, first row, so the prior-row
neighbours `b` and `c` are 0).  Per the reconstruction table, a filtered
byte is the raw byte minus the predictor, modulo 256 — the algebraic
inverse of the corresponding reconstruction rule. -/

def filterRow1 (ft : ℕ) (raw : ℕ → ℕ) (i : ℕ) : ℕ :=
  match ft with
  | 0 => raw i
  | 1 => (raw i + 256 - (if i = 0 then 0 else raw (i - 1))) % 256
  | 2 => (raw i + 256 - 0) % 256
  | 3 => (raw i + 256 - ((if i = 0 then 0 else raw (i - 1)) + 0) / 2) % 256
  | 4 => (raw i + 256 - paethPredictor (if i = 0 then 0 else raw (i - 1)) 0 0) % 256
  | _ => raw i

theorem roundtripNone {length : ℕ} {raw px : ℕ → ℕ} :
    ∀ i, i < length → unFilterNone (filterRow1 0 raw) px 1 0 length i = raw i := by
  intro i hi
  have h := @unFilterNone_at (filterRow1 0 raw) px 1 0 length i hi
  rw [Nat.zero_add] at h
  rw [h]
  rfl

theorem roundtripSub {length : ℕ} {raw px : ℕ → ℕ} (hraw : ∀ j, raw j < 256) :
    ∀ i, i < length → unFilterSub (filterRow1 1 raw) px 1 0 length i = raw i := by
  intro i
  induction i using Nat.strong_induction_on with
  | _ i ih =>
    intro hi
    rcases Nat.eq_zero_or_pos i with h0 | h0
    · subst h0
      have h := @unFilterSub_low (filterRow1 1 raw) px 1 0 length 0 (by omega)
      rw [Nat.zero_add] at h
      rw [h]
      show (raw 0 + 256 - (if 0 = 0 then 0 else raw (0 - 1))) % 256 = raw 0
      rw [if_pos rfl]
      have := hraw 0
      omega
    · have h := @unFilterSub_at (filterRow1 1 raw) px 1 0 length i (by omega) h0 hi
      rw [Nat.zero_add] at h
      rw [h, ih (i - 1) (by omega) (by omega)]
      show ((raw i + 256 - (if i = 0 then 0 else raw (i - 1))) % 256 + raw (i - 1)) % 256 = raw i
      rw [if_neg (by omega)]
      have := hraw i
      have := hraw (i - 1)
      omega

theorem roundtripUp {length : ℕ} {raw px : ℕ → ℕ} (hraw : ∀ j, raw j < 256) :
    ∀ i, i < length → unFilterUp (filterRow1 2 raw) px 1 0 length i = raw i := by
  intro i hi
  have h := @unFilterUp_first (filterRow1 2 raw) px 1 0 length i (by omega) hi
  rw [Nat.zero_add] at h
  rw [h]
  show (raw i + 256 - 0) % 256 = raw i
  have := hraw i
  omega

theorem roundtripAverage {length : ℕ} {raw px : ℕ → ℕ} (hraw : ∀ j, raw j < 256) :
    ∀ i, i < length → unFilterAverage (filterRow1 3 raw) px 1 0 length i = raw i := by
  intro i
  induction i using Nat.strong_induction_on with
  | _ i ih =>
    intro hi
    rcases Nat.eq_zero_or_pos i with h0 | h0
    · subst h0
      have h := @unFilterAverage_first_low (filterRow1 3 raw) px 1 0 length 0 (by omega) (by omega)
      rw [Nat.zero_add] at h
      rw [h]
      show (raw 0 + 256 - ((if 0 = 0 then 0 else raw (0 - 1)) + 0) / 2) % 256 = raw 0
      rw [if_pos rfl]
      have := hraw 0
      omega
    · have h := @unFilterAverage_first_at (filterRow1 3 raw) px 1 0 length i (by omega) (by omega) h0 hi
      rw [Nat.zero_add] at h
      rw [h, ih (i - 1) (by omega) (by omega)]
      show ((raw i + 256 - ((if i = 0 then 0 else raw (i - 1)) + 0) / 2) % 256 + raw (i - 1) / 2) % 256 = raw i
      rw [if_neg (by omega)]
      have := hraw i
      have := hraw (i - 1)
      omega

theorem roundtripPaeth {length : ℕ} {raw px : ℕ → ℕ} (hraw : ∀ j, raw j < 256) :
    ∀ i, i < length → unFilterPaeth (filterRow1 4 raw) px 1 0 length i = raw i := by
  intro i
  induction i using Nat.strong_induction_on with
  | _ i ih =>
    intro hi
    rcases Nat.eq_zero_or_pos i with h0 | h0
    · subst h0
      have h := @unFilterPaeth_first_low (filterRow1 4 raw) px 1 0 length 0 (by omega) (by omega)
      rw [Nat.zero_add] at h
      rw [h]
      show (raw 0 + 256 - paethPredictor (if 0 = 0 then 0 else raw (0 - 1)) 0 0) % 256 = raw 0
      rw [if_pos rfl, paethPredictor_a00]
      have := hraw 0
      omega
    · have h := @unFilterPaeth_first_at (filterRow1 4 raw) px 1 0 length i (by omega) (by omega) h0 hi
      rw [Nat.zero_add] at h
      rw [h, ih (i - 1) (by omega) (by omega)]
      show ((raw i + 256 - paethPredictor (if i = 0 then 0 else raw (i - 1)) 0 0) % 256 + raw (i - 1)) % 256 = raw i
      rw [if_neg (by omega), paethPredictor_a00]
      have := hraw i
      have := hraw (i - 1)
      omega

/-- C1: for every single-row, single-channel row of bytes and every filter
type `k < 5`, filtering with the encoder-side filter (the algebraic inverse
of the reconstruction table) and then unfiltering through the decoder's
dispatch reproduces the original row exactly. -/
theorem C1_filter_unfilter_roundtrip (ft length : ℕ) (hft : ft < 5) (raw px : ℕ → ℕ)
    (hraw : ∀ j, raw j < 256) :
    ∃ F, unFilterScanline ft (filterRow1 ft raw) px 1 0 length = .ok F ∧
      ∀ i, i < length → F i = raw i := by
  interval_cases ft
  · exact ⟨_, rfl, roundtripNone⟩
  · exact ⟨_, rfl, roundtripSub hraw⟩
  · exact ⟨_, rfl, roundtripUp hraw⟩
  · exact ⟨_, rfl, roundtripAverage hraw⟩
  · exact ⟨_, rfl, roundtripPaeth hraw⟩

theorem C1_roundtrip_witness :
    (4 : ℕ) < 5 ∧
      ∃ F, unFilterScanline 4 (filterRow1 4 fun j => (100 * j) % 256) (fun _ => 0) 1 0 2 = .ok F ∧
        ∀ i, i < 2 → F i = (100 * i) % 256 :=
  ⟨by decide,
    C1_filter_unfilter_roundtrip 4 2 (by decide) (fun j => (100 * j) % 256) (fun _ => 0)
      (fun j => by show (100 * j) % 256 < 256; omega)⟩

/-- C2: on the first row (`of < length`), `unFilterUp`/`unFilterAverage`/
`unFilterPaeth` reconstruct every byte as if the prior-row byte `b` and the
prior-row-left byte `c` were 0; and on the first `bpp` bytes of any row,
the functions that use a left neighbour (`unFilterSub`, `unFilterAverage`,
`unFilterPaeth`) reconstruct as if the left byte `a` and the upper-left
byte `c` were 0.  The neighbours are read back from the reconstructed
store itself. -/
theorem C2_boundary_zero (scanline px : ℕ → ℕ) (bpp of length : ℕ)
    (hbpp : 0 < bpp) (hscan : ∀ j, scanline j < 256) :
    (∀ i, i < length → of < length →
      unFilterUp scanline px bpp of length (of + i) = (scanline i + 0) % 256 ∧
      unFilterAverage scanline px bpp of length (of + i) =
        (scanline i +
          ((if i < bpp then 0 else unFilterAverage scanline px bpp of length (of + i - bpp)) +
            0) / 2) % 256 ∧
      unFilterPaeth scanline px bpp of length (of + i) =
        (scanline i +
          paethPredictor
            (if i < bpp then 0 else unFilterPaeth scanline px bpp of length (of + i - bpp))
            0 0) % 256) ∧
    (∀ i, i < bpp → i < length →
      unFilterSub scanline px bpp of length (of + i) = (scanline i + 0) % 256 ∧
      unFilterAverage scanline px bpp of length (of + i) =
        (scanline i +
          (0 +
            (if of < length then 0
             else unFilterAverage scanline px bpp of length (of + i - length))) / 2) % 256 ∧
      unFilterPaeth scanline px bpp of length (of + i) =
        (scanline i +
          paethPredictor 0
            (if of < length then 0
             else unFilterPaeth scanline px bpp of length (of + i - length))
            0) % 256) := by
  constructor
  · intro i hi hof
    refine ⟨?_, ?_, ?_⟩
    · rw [unFilterUp_first hof hi]
      simp [Nat.mod_eq_of_lt (hscan i)]
    · by_cases hib : i < bpp
      · rw [unFilterAverage_first_low hof hib, if_pos hib]
        simp [Nat.mod_eq_of_lt (hscan i)]
      · rw [unFilterAverage_first_at hbpp hof (by omega) hi, if_neg hib]
        simp
    · by_cases hib : i < bpp
      · rw [unFilterPaeth_first_low hof hib, if_pos hib, paethPredictor_a00]
        simp [Nat.mod_eq_of_lt (hscan i)]
      · rw [unFilterPaeth_first_at hbpp hof (by omega) hi, if_neg hib, paethPredictor_a00]
  · intro i hib hi
    refine ⟨?_, ?_, ?_⟩
    · rw [unFilterSub_low hib]
      simp [Nat.mod_eq_of_lt (hscan i)]
    · by_cases hof : of < length
      · rw [unFilterAverage_first_low hof hib, if_pos hof]
        simp [Nat.mod_eq_of_lt (hscan i)]
      · rw [unFilterAverage_else_low (by omega) hib hi, if_neg hof,
          unFilterAverage_untouched (show of + i - length < of from by omega)]
        simp
    · by_cases hof : of < length
      · rw [unFilterPaeth_first_low hof hib, if_pos hof, paethPredictor_0b0]
        simp [Nat.mod_eq_of_lt (hscan i)]
      · rw [unFilterPaeth_else_low (by omega) hib hi, if_neg hof,
          unFilterPaeth_untouched (show of + i - length < of from by omega),
          paethPredictor_0b0]

theorem C2_boundary_witness :
    (0 : ℕ) < 1 ∧
      unFilterUp (fun _ => 7) (fun _ => 9) 1 0 2 (0 + 1) = ((fun _ => 7) 1 + 0) % 256 :=
  ⟨by decide,
    ((C2_boundary_zero (fun _ => 7) (fun _ => 9) 1 0 2 (by decide)
        (fun j => by show (7 : ℕ) < 256; decide)).1 1 (by decide) (by decide)).1⟩

/-- C3: in `unFilterPaeth`'s predictor selection, when `pa = pb = pc` the
selected predictor is `a`, and when `pa = pb < pc` it is also `a` (ties are
broken in the order `a`, `b`, `c`). -/
theorem C3_paeth_tiebreak (a b c : ℕ) (ha : a < 256) (hb : b < 256) (hc : c < 256) :
    (((a : ℤ) + b - c - a).natAbs = ((a : ℤ) + b - c - b).natAbs ∧
        ((a : ℤ) + b - c - b).natAbs = ((a : ℤ) + b - c - c).natAbs →
      paethPredictor a b c = a) ∧
    (((a : ℤ) + b - c - a).natAbs = ((a : ℤ) + b - c - b).natAbs ∧
        ((a : ℤ) + b - c - a).natAbs < ((a : ℤ) + b - c - c).natAbs →
      paethPredictor a b c = a) := by
  simp only [paethPredictor]
  constructor <;> rintro ⟨h1, h2⟩ <;> rw [if_pos ⟨by omega, by omega⟩]

theorem C3_tiebreak_witness : paethPredictor 5 5 5 = 5 ∧ paethPredictor 1 1 0 = 1 :=
  ⟨(C3_paeth_tiebreak 5 5 5 (by decide) (by decide) (by decide)).1 ⟨by decide, by decide⟩,
    (C3_paeth_tiebreak 1 1 0 (by decide) (by decide) (by decide)).2 ⟨by decide, by decide⟩⟩

/-- C4: at every byte position of every row, `unFilterAverage` computes
`recon(x) = (filt(x) + floor((a + b) / 2)) mod 256` where `a` and `b` are
the already-reconstructed left and prior-row bytes (0 when out of bounds),
with the arithmetic modulo 256. -/
theorem C4_average_recon (scanline px : ℕ → ℕ) (bpp of length : ℕ)
    (hbpp : 0 < bpp) (hscan : ∀ j, scanline j < 256) :
    ∀ i, i < length →
      unFilterAverage scanline px bpp of length (of + i) =
        (scanline i +
          ((if i < bpp then 0 else unFilterAverage scanline px bpp of length (of + i - bpp)) +
           (if of < length then 0
            else unFilterAverage scanline px bpp of length (of + i - length))) / 2) % 256 := by
  intro i hi
  by_cases hof : of < length <;> by_cases hib : i < bpp
  · rw [unFilterAverage_first_low hof hib, if_pos hib, if_pos hof]
    simp [Nat.mod_eq_of_lt (hscan i)]
  · rw [unFilterAverage_first_at hbpp hof (by omega) hi, if_neg hib, if_pos hof]
    simp
  · rw [unFilterAverage_else_low (by omega) hib hi, if_pos hib, if_neg hof,
      unFilterAverage_untouched (show of + i - length < of from by omega)]
    simp
  · rw [unFilterAverage_else_at hbpp (by omega) (by omega) hi, if_neg hib, if_neg hof,
      unFilterAverage_untouched (show of + i - length < of from by omega)]

theorem C4_average_witness :
    (0 : ℕ) < 1 ∧
      unFilterAverage (fun _ => 3) (fun _ => 8) 1 2 2 (2 + 1) =
        ((fun _ => 3) 1 +
          ((if (1 : ℕ) < 1 then 0 else unFilterAverage (fun _ => 3) (fun _ => 8) 1 2 2 (2 + 1 - 1)) +
           (if (2 : ℕ) < 2 then 0
            else unFilterAverage (fun _ => 3) (fun _ => 8) 1 2 2 (2 + 1 - 2))) / 2) % 256 :=
  ⟨by decide,
    C4_average_recon (fun _ => 3) (fun _ => 8) 1 2 2 (by decide)
      (fun j => by show (3 : ℕ) < 256; decide) 1 (by decide)⟩

/-! ## Signed 32-bit facts for the byte readers -/

theorem toInt32_small {n : ℤ} (h0 : 0 ≤ n) (h1 : n < 2147483648) : toInt32 n = n := by
  unfold toInt32
  rw [Int.emod_eq_of_lt h0 (by omega), if_pos h1]

theorem toInt32_high {n : ℤ} (h0 : 2147483648 ≤ n) (h1 : n < 4294967296) :
    toInt32 n = n - 4294967296 := by
  unfold toInt32
  rw [Int.emod_eq_of_lt (by omega) (by omega), if_neg (by omega)]

theorem jsShl_zero (s : ℕ) : jsShl 0 s = 0 := by
  unfold jsShl
  rw [toInt32_small le_rfl (by norm_num), zero_mul, toInt32_small le_rfl (by norm_num)]

theorem jsShl_byte0 (x : ℕ) (hx : x < 256) : jsShl (x : ℤ) 0 = x := by
  unfold jsShl
  rw [show toInt32 (x : ℤ) = (x : ℤ) from toInt32_small (by positivity) (by omega)]
  norm_num
  exact toInt32_small (by positivity) (by omega)

theorem jsShl_byte8 (x : ℕ) (hx : x < 256) : jsShl (x : ℤ) 8 = x * 256 := by
  unfold jsShl
  rw [show toInt32 (x : ℤ) = (x : ℤ) from toInt32_small (by positivity) (by omega)]
  norm_num
  exact toInt32_small (by positivity) (by omega)

theorem jsShl_byte16 (x : ℕ) (hx : x < 256) : jsShl (x : ℤ) 16 = x * 65536 := by
  unfold jsShl
  rw [show toInt32 (x : ℤ) = (x : ℤ) from toInt32_small (by positivity) (by omega)]
  norm_num
  exact toInt32_small (by positivity) (by omega)

theorem jsShl_byte24_high (x : ℕ) (h0 : 128 ≤ x) (h1 : x < 256) :
    jsShl (x : ℤ) 24 = x * 16777216 - 4294967296 := by
  unfold jsShl
  rw [show toInt32 (x : ℤ) = (x : ℤ) from toInt32_small (by positivity) (by omega)]
  norm_num
  rw [toInt32_high (by omega) (by omega)]

/-- A big-endian word whose three high bytes read 0 is just its low byte. -/
theorem readUInt32_low {b : List ℕ} {o : ℕ} (h0 : b.getD o 0 = 0) (h1 : b.getD (o + 1) 0 = 0)
    (h2 : b.getD (o + 2) 0 = 0) (h3 : b.getD (o + 3) 0 < 256) :
    readUInt32 b o = b.getD (o + 3) 0 := by
  unfold readUInt32
  rw [h0, h1, h2]
  simp only [Nat.cast_zero, jsShl_zero, zero_add]
  exact jsShl_byte0 _ h3

/-- A chunk-length word whose top bit is set reads as a negative number. -/
theorem readUInt32_neg {b : List ℕ} {o : ℕ} (h0 : 128 ≤ b.getD o 0) (h0' : b.getD o 0 < 256)
    (h1 : b.getD (o + 1) 0 < 256) (h2 : b.getD (o + 2) 0 < 256)
    (h3 : b.getD (o + 3) 0 < 256) :
    readUInt32 b o < 0 := by
  unfold readUInt32
  rw [jsShl_byte24_high _ h0 h0', jsShl_byte16 _ h1, jsShl_byte8 _ h2, jsShl_byte0 _ h3]
  omega

theorem getD_take_drop (l : List ℕ) (i j n : ℕ) (h : j < n) :
    ((l.drop i).take n).getD j 0 = l.getD (i + j) 0 := by
  rw [List.getD_eq_getD_get?, List.getD_eq_getD_get?, List.get?_eq_getElem?,
    List.get?_eq_getElem?, List.getElem?_take_of_lt h, List.getElem?_drop]

/-! ## The claims about decoding -/

/-- C5: the spec admits the bit depths {1, 2, 4, 8, 16}, and the source's
own colour-type table (lines 481-495) allows depth 1 for colour types 0 and
3, but the setter's list is `[2, 4, 8, 16]`: a bit depth of 1 is rejected
(while 2 is accepted as expected). -/
theorem C5_bitDepth_one_rejected :
    setBitDepth initPNG 1 = .error (.invalidBitDepth 1) ∧
      setBitDepth initPNG 2 = .ok { initPNG with bitDepth := 2 } :=
  ⟨rfl, rfl⟩

/-- C6 counterexample: a 13-byte IHDR chunk with width 0 decodes without
any error, producing a descriptor of width 0 — the claim that a zero
dimension is rejected at assignment time is false. -/
theorem C6_zero_width_accepted :
    (decodeIHDR [0, 0, 0, 0, 0, 0, 0, 1, 8, 0, 0, 0, 0] initPNG).toOption.map PNGState.width =
      some 0 := rfl

/-- C6 amended: the width/height setters perform no validation at all: an
IHDR chunk carrying any byte values `w`, `h` in its low dimension bytes
decodes successfully to a descriptor with exactly those dimensions,
zero included. -/
theorem C6_ihdr_no_dimension_check (w h : ℕ) (hw : w < 256) (hh : h < 256) :
    (decodeIHDR [0, 0, 0, w, 0, 0, 0, h, 8, 0, 0, 0, 0] initPNG).toOption.map
        (fun p => (p.width, p.height)) = some ((w : ℤ), (h : ℤ)) := by
  have e1 : readUInt32 [0, 0, 0, w, 0, 0, 0, h, 8, 0, 0, 0, 0] 0 = (w : ℤ) :=
    readUInt32_low rfl rfl rfl hw
  have e2 : readUInt32 [0, 0, 0, w, 0, 0, 0, h, 8, 0, 0, 0, 0] 4 = (h : ℤ) :=
    readUInt32_low rfl rfl rfl hh
  unfold decodeIHDR
  rw [e1, e2]
  rfl

theorem C6_dimension_witness :
    (0 : ℕ) < 256 ∧ (1 : ℕ) < 256 ∧
      (decodeIHDR [0, 0, 0, 0, 0, 0, 0, 1, 8, 0, 0, 0, 0] initPNG).toOption.map
          (fun p => (p.width, p.height)) = some ((0 : ℤ), (1 : ℤ)) :=
  ⟨by decide, by decide, C6_ihdr_no_dimension_check 0 1 (by decide) (by decide)⟩

/-- C7 counterexample: a PLTE chunk handed to `decodeChunk` on a fresh
reader (no IHDR seen) is processed — the palette is stored and the chunk
type is returned, with no error of any kind. -/
theorem C7_plte_before_header_processed :
    (decodeChunk ⟨[0, 0, 0, 3, 80, 76, 84, 69, 1, 2, 3, 0, 0, 0, 0], 0, initPNG, [],
        none⟩).toOption.map (fun r => (r.1, r.2.png.palette)) =
      some (typePLTE, some [1, 2, 3]) := rfl

/-- C7 amended: `decodeChunk` performs no chunk-ordering check whatsoever:
on a fresh reader state (header fields still at their defaults) a PLTE
chunk is processed and stores the palette, an IDAT chunk is queued, and an
IEND chunk is consumed, each returning `ok` rather than any error. -/
theorem C7_no_order_check (p1 p2 p3 d1 d2 : ℕ) :
    decodeChunk ⟨[0, 0, 0, 3, 80, 76, 84, 69, p1, p2, p3, 0, 0, 0, 0], 0, initPNG, [], none⟩ =
        .ok (typePLTE,
          ⟨[0, 0, 0, 3, 80, 76, 84, 69, p1, p2, p3, 0, 0, 0, 0], 15,
            { initPNG with palette := some [p1, p2, p3] }, [], none⟩) ∧
      decodeChunk ⟨[0, 0, 0, 2, 73, 68, 65, 84, d1, d2, 0, 0, 0, 0], 0, initPNG, [], none⟩ =
        .ok (typeIDAT,
          ⟨[0, 0, 0, 2, 73, 68, 65, 84, d1, d2, 0, 0, 0, 0], 14, initPNG, [[d1, d2]], none⟩) ∧
      decodeChunk ⟨[0, 0, 0, 0, 73, 69, 78, 68, 0, 0, 0, 0], 0, initPNG, [], none⟩ =
        .ok (typeIEND, ⟨[0, 0, 0, 0, 73, 69, 78, 68, 0, 0, 0, 0], 12, initPNG, [], none⟩) := by
  refine ⟨?_, ?_, ?_⟩ <;>
    simp [decodeChunk, readBytes, setPalette, readUInt32, jsShl, toInt32, initPNG, typeIHDR,
      typePLTE, typeIDAT, typeIEND]

/-- A well-formed PNG file: signature, IHDR (1×1 grayscale, bit depth 8,
no interlace), one IDAT chunk, IEND. -/
def pngHeaderOnlyBytes : List ℕ :=
  [0x89, 0x50, 0x4E, 0x47, 0x0D, 0x0A, 0x1A, 0x0A,
   0, 0, 0, 13, 73, 72, 68, 82, 0, 0, 0, 1, 0, 0, 0, 1, 8, 0, 0, 0, 0, 0, 0, 0, 0,
   0, 0, 0, 2, 73, 68, 65, 84, 1, 2, 0, 0, 0, 0,
   0, 0, 0, 0, 73, 69, 78, 68, 0, 0, 0, 0]

/-- The descriptor `parse` builds from that file's IHDR chunk. -/
def ihdrPNG : PNGState := ⟨1, 1, 8, 0, 0, 0, 0, 1, false, 0, none, none⟩

/-- When the inflate collaborator fails, `decodePixels` reports its error
alongside the (header-only) descriptor — and the collaborator has been
invoked. -/
theorem decodePixels_err {inflateFn : List ℕ → Except Err (List ℕ)} {s : ReaderState} {e : Err}
    (hfn : inflateFn (s.dataChunks.foldl (fun acc c => acc ++ c) []) = .error e) :
    decodePixels inflateFn s = ⟨some e, some s.png, true⟩ := by
  simp only [decodePixels]
  rw [hfn]

/-- C8 counterexample: header-only parsing (`data := false`) of a
well-formed file still invokes the decompression collaborator — the claim
that it is not invoked at all is false. -/
theorem C8_inflate_called :
    (parse (fun _ => .error .inflateErr) (some false) pngHeaderOnlyBytes).inflateCalled =
      true := rfl

/-- C8 amended: header-only parsing of the well-formed file stops chunk
iteration after IHDR and returns a descriptor with the correct width,
height, bit depth and colour type and no pixel buffer — but `parse` still
calls `decodePixels`, which invokes the decompression collaborator on the
empty accumulated data; whatever error that produces is handed to the
callback next to the descriptor. -/
theorem C8_header_only (inflateFn : List ℕ → Except Err (List ℕ)) (e : Err)
    (hfn : inflateFn [] = .error e) :
    parse inflateFn (some false) pngHeaderOnlyBytes = ⟨some e, some ihdrPNG, true⟩ ∧
      ihdrPNG.width = 1 ∧ ihdrPNG.height = 1 ∧ ihdrPNG.bitDepth = 8 ∧
      ihdrPNG.colorType = 0 ∧ ihdrPNG.pixels = none := by
  refine ⟨?_, rfl, rfl, rfl, rfl, rfl⟩
  have hstep : parse inflateFn (some false) pngHeaderOnlyBytes =
      decodePixels inflateFn ⟨pngHeaderOnlyBytes, 33, ihdrPNG, [], some pngSignature⟩ := rfl
  rw [hstep, decodePixels_err hfn]

theorem C8_header_only_witness :
    (fun _ : List ℕ => (.error .inflateErr : Except Err (List ℕ))) [] = .error .inflateErr ∧
      parse (fun _ => .error .inflateErr) (some false) pngHeaderOnlyBytes =
        ⟨some .inflateErr, some ihdrPNG, true⟩ :=
  ⟨rfl, (C8_header_only (fun _ => .error .inflateErr) .inflateErr rfl).1⟩

theorem C7_no_order_witness :
    decodeChunk ⟨[0, 0, 0, 3, 80, 76, 84, 69, 9, 8, 7, 0, 0, 0, 0], 0, initPNG, [], none⟩ =
      .ok (typePLTE,
        ⟨[0, 0, 0, 3, 80, 76, 84, 69, 9, 8, 7, 0, 0, 0, 0], 15,
          { initPNG with palette := some [9, 8, 7] }, [], none⟩) :=
  (C7_no_order_check 9 8 7 0 0).1

/-- C9: when the four-byte chunk length field has its most significant bit
set, `readUInt32` yields a negative value (the `<< 24` shift is signed),
and `decodeChunk` throws the bad-chunk-length error instead of reading the
chunk data. -/
theorem C9_negative_length_rejected (s : ReaderState)
    (h4 : s.i + 4 ≤ s.bytes.length)
    (h0 : 128 ≤ s.bytes.getD s.i 0) (h0' : s.bytes.getD s.i 0 < 256)
    (h1 : s.bytes.getD (s.i + 1) 0 < 256) (h2 : s.bytes.getD (s.i + 2) 0 < 256)
    (h3 : s.bytes.getD (s.i + 3) 0 < 256) :
    readUInt32 ((s.bytes.drop s.i).take 4) 0 < 0 ∧
      decodeChunk s =
        .error (.badChunkLength (readUInt32 ((s.bytes.drop s.i).take 4) 0)) := by
  have g0 := getD_take_drop s.bytes s.i 0 4 (by norm_num)
  have g1 := getD_take_drop s.bytes s.i 1 4 (by norm_num)
  have g2 := getD_take_drop s.bytes s.i 2 4 (by norm_num)
  have g3 := getD_take_drop s.bytes s.i 3 4 (by norm_num)
  rw [Nat.add_zero] at g0
  have hneg : readUInt32 ((s.bytes.drop s.i).take 4) 0 < 0 := by
    refine readUInt32_neg ?_ ?_ ?_ ?_ ?_
    · rw [g0]; exact h0
    · rw [g0]; exact h0'
    · rw [show (0 : ℕ) + 1 = 1 from rfl, g1]; exact h1
    · rw [show (0 : ℕ) + 2 = 2 from rfl, g2]; exact h2
    · rw [show (0 : ℕ) + 3 = 3 from rfl, g3]; exact h3
  refine ⟨hneg, ?_⟩
  have hrb : readBytes s 4 = .ok ((s.bytes.drop s.i).take 4, { s with i := s.i + 4 }) := by
    unfold readBytes
    rw [if_neg (by omega)]
  simp only [decodeChunk, hrb]
  rw [if_pos hneg]

/-- A reader state sitting on a chunk whose declared length is `2^31`. -/
def bigChunkReader : ReaderState := ⟨[128, 0, 0, 0, 73, 68, 65, 84], 0, initPNG, [], none⟩

theorem C9_negative_length_witness :
    bigChunkReader.i + 4 ≤ bigChunkReader.bytes.length ∧
      decodeChunk bigChunkReader =
        .error (.badChunkLength (readUInt32 ((bigChunkReader.bytes.drop bigChunkReader.i).take 4) 0)) :=
  ⟨by decide,
    (C9_negative_length_rejected bigChunkReader (by decide) (by decide) (by decide) (by decide)
      (by decide) (by decide)).2⟩

/-- C10: with a pixel buffer present, `getPixel` raises the out-of-bounds
error exactly when `x ≥ width` or `y ≥ height`; negative coordinates pass
the check. -/
theorem C10_outOfBound_iff (png : PNGState) (f : ℕ → ℕ) (hp : png.pixels = some f)
    (x y : ℤ) :
    (getPixel png x y = .error .outOfBound ↔ png.width ≤ x ∨ png.height ≤ y) := by
  simp only [getPixel, hp]
  by_cases hb : png.width ≤ x ∨ png.height ≤ y
  · rw [if_pos hb]
    simp [hb]
  · rw [if_neg hb]
    refine iff_of_false ?_ hb
    split <;> try simp
    split <;> try simp
    split <;> simp

/-- A successfully decoded 1×1 image with a (zeroed) pixel buffer. -/
def png1x1 : PNGState := ⟨1, 1, 8, 0, 0, 0, 0, 1, false, 0, none, some (fun _ => 0)⟩

theorem C10_outOfBound_witness :
    png1x1.pixels = some (fun _ => 0) ∧
      ¬ getPixel png1x1 (-1) (-1) = .error .outOfBound :=
  ⟨rfl, fun h =>
    absurd ((C10_outOfBound_iff png1x1 (fun _ => 0) rfl (-1) (-1)).mp h) (by decide)⟩

end PNGReader
